import Mathlib

/-!
Verification of the synAI media editor core against its design document.

Two components are embedded shallowly:

* `Voice` — the voice-uploader page: region-based audio trimming.  The
  FFmpeg filter construction inside `trimAudio` is modelled structurally
  (`filterParts`, `concatInputs`, `filterComplex`), and the request flow
  (file/region precondition, processor initialisation, the
  single-in-flight discipline enforced by disabling the Trim button while
  `isProcessing` is set) is modelled as a state transition `trimClick`.

* `Uploader` — the multitrack video-editor page: track registry
  (`updateTrackVolume`, the `start-position-change` handler), the
  video/multitrack drift-correction tick (`updateTime`), and the subtitle
  region manager (`addRegion`, `updateRegionTime`, `deleteRegion`).

Times and volumes are JavaScript numbers in the source; they are modelled
as rationals (`ℚ`), with `Math.min` / `Math.max` / `Math.abs` as
`min` / `max` / `|·|`.  Sources of nondeterminism in the code —
`Math.random()` in the color draw and `Date.now()` in the region id — are
passed in as explicit oracle arguments.
-/

namespace Voice

/-- A region marked on the voice-uploader waveform (the `regions` state of
the component): an id string and a start/end pair in seconds.  The source
field `end` is a reserved word in Lean and is named `stop` here. -/
structure Region where
  id : String
  start : ℚ
  stop : ℚ
deriving DecidableEq, Repr

/-- One `atrim` filter stage of the FFmpeg filter graph built by
`trimAudio`: extract the interval `[start, stop]` and label the resulting
stream `[a<label>]`. -/
structure AtrimOp where
  start : ℚ
  stop : ℚ
  label : Nat
deriving DecidableEq, Repr

/-- Structural content of the `filter_complex` string assembled by
`trimAudio`: the ordered `atrim` stages, the ordered stream labels fed to
`concat`, and the `n=` argument of the `concat` filter. -/
structure TrimPlan where
  parts : List AtrimOp
  inputs : List Nat
  n : Nat
deriving DecidableEq, Repr

/-- The `filterParts` array of `trimAudio`: one extraction operation per
region, indexed in list order (`regions.map((region, index) => ...)`). -/
def filterParts (regions : List Region) : List AtrimOp :=
  regions.enum.map fun p => ⟨p.2.start, p.2.stop, p.1⟩

/-- The `concatInputs` string of `trimAudio`: the stream labels
`[a0][a1]...` in index order. -/
def concatInputs (regions : List Region) : List Nat :=
  regions.enum.map Prod.fst

/-- The whole `filterComplex` expression of `trimAudio`: all `atrim`
stages joined, followed by one `concat=n=<regions.length>:v=0:a=1`. -/
def filterComplex (regions : List Region) : TrimPlan :=
  ⟨filterParts regions, concatInputs regions, regions.length⟩

/-- Error surface of the trim pipeline.  `busy` is the rejection of a
click on the disabled Trim button while a request is in flight;
`noRegions` is the message set when no file is selected or no region
exists; `initFailed` and `execFailed` are the two caught failure paths. -/
inductive TrimError where
  | busy
  | noRegions
  | initFailed
  | execFailed
deriving DecidableEq, Repr

/-- State of the voice-uploader component relevant to trimming:
`hasFile` (`selectedFile` non-null), the marked regions, `ffmpegReady`
(`ffmpegRef.current` non-null), the `isProcessing` flag, the plan of the
last successful trim (standing in for `trimmedAudioUrl`, which holds the
artifact produced from exactly that plan), and the `error` message. -/
structure VoiceState where
  hasFile : Bool
  regions : List Region
  ffmpegReady : Bool
  isProcessing : Bool
  trimmedPlan : Option TrimPlan
  err : Option TrimError
deriving DecidableEq, Repr

/-- The `trimAudio` function run to completion, with the outcomes of the
two suspending external calls passed as oracles: `initOk` is whether
`initFFmpeg` succeeds when needed, `execOk` whether `ffmpeg.exec`
succeeds.  Mirrors the source: reject when no file or no regions; then
initialise the processor if absent; then set `isProcessing`, build the
filter graph from the regions in stored order, run it, store the output,
and clear `isProcessing` in the `finally` block. -/
def trimAudio (initOk execOk : Bool) (st : VoiceState) : VoiceState :=
  if st.hasFile = false ∨ st.regions = [] then
    { st with err := some TrimError.noRegions }
  else if (st.ffmpegReady || initOk) = false then
    { st with err := some TrimError.initFailed }
  else if execOk then
    { st with ffmpegReady := true, isProcessing := false, err := none,
              trimmedPlan := some (filterComplex st.regions) }
  else
    { st with ffmpegReady := true, isProcessing := false,
              err := some TrimError.execFailed }

/-- A user trim request: the Trim Audio button dispatches `trimAudio`,
but is rendered with `disabled={isProcessing}`, so while a request is in
flight the invocation is rejected immediately (reported here as `busy`)
and nothing runs.  Returns the new state and the condition reported to
the caller. -/
def trimClick (initOk execOk : Bool) (st : VoiceState) : VoiceState × Option TrimError :=
  if st.isProcessing then (st, some TrimError.busy)
  else
    let st2 := trimAudio initOk execOk st
    (st2, st2.err)

end Voice

namespace Voice

/-- C1: for every non-empty region list, the compiled plan has exactly one
extraction operation `(start, end)` per region, in the list's stored
order (labels `0, 1, ...`), plus a single concatenation joining the `n`
outputs in that same order; nothing is merged or re-sorted, equal ordered
input gives an identical plan, and a completed trim stores exactly this
plan. -/
theorem trim_plan_per_region_ordered (regions : List Region) (hne : regions ≠ []) :
    (filterComplex regions).parts.map (fun op => (op.start, op.stop)) =
        regions.map (fun r => (r.start, r.stop)) ∧
      (filterComplex regions).parts.map (fun op => op.label) = List.range regions.length ∧
      (filterComplex regions).inputs = List.range regions.length ∧
      (filterComplex regions).n = regions.length ∧
      (∀ regions2 : List Region, regions2 = regions → filterComplex regions2 = filterComplex regions) ∧
      (∀ st : VoiceState, st.isProcessing = false → st.hasFile = true → st.regions = regions →
        (trimClick true true st).1.trimmedPlan = some (filterComplex regions)) := by
  refine ⟨?_, ?_, ?_, rfl, fun _ h => by rw [h], ?_⟩
  · simp only [filterComplex, filterParts, List.map_map]
    have hcomp : ((fun op : AtrimOp => (op.start, op.stop)) ∘
        fun p : Nat × Region => AtrimOp.mk p.2.start p.2.stop p.1) =
        (fun r : Region => (r.start, r.stop)) ∘ Prod.snd := rfl
    rw [hcomp, ← List.map_map, List.enum_map_snd]
  · simp only [filterComplex, filterParts, List.map_map]
    have hcomp : ((fun op : AtrimOp => op.label) ∘
        fun p : Nat × Region => AtrimOp.mk p.2.start p.2.stop p.1) =
        (Prod.fst : Nat × Region → Nat) := rfl
    rw [hcomp, List.enum_map_fst]
  · exact List.enum_map_fst regions
  · intro st hp hf hr
    simp [trimClick, trimAudio, hp, hf, hr, hne]

/-- Witness for C1 at the two regions `(0,2)` then `(5,7)` of spec
scenario B: the plan extracts `(0,2)` then `(5,7)` in creation order and
concatenates two streams. -/
theorem trim_plan_per_region_ordered_app :
    (filterComplex [⟨"r1", 0, 2⟩, ⟨"r2", 5, 7⟩]).parts.map (fun op => (op.start, op.stop)) =
        ([⟨"r1", 0, 2⟩, ⟨"r2", 5, 7⟩] : List Region).map (fun r => (r.start, r.stop)) ∧
      (filterComplex [⟨"r1", 0, 2⟩, ⟨"r2", 5, 7⟩]).n =
        ([⟨"r1", 0, 2⟩, ⟨"r2", 5, 7⟩] : List Region).length := by
  have h := trim_plan_per_region_ordered [⟨"r1", 0, 2⟩, ⟨"r2", 5, 7⟩] (List.cons_ne_nil _ _)
  exact ⟨h.1, h.2.2.2.1⟩

/-- C5: while a trim request is pending (`isProcessing` set), a second
trim invocation is rejected immediately as `busy`: the state — including
the pending flag, the regions the pending request will compile, and any
stored output — is completely unchanged, so the first request's eventual
output is unaffected and no new executor work starts. -/
theorem trim_busy_rejected (st : VoiceState) (initOk execOk : Bool)
    (h : st.isProcessing = true) :
    trimClick initOk execOk st = (st, some TrimError.busy) := by
  simp [trimClick, h]

/-- Witness for C5: a concrete in-flight state rejects a second click
unchanged. -/
theorem trim_busy_rejected_app :
    trimClick true true ⟨true, [⟨"r1", 0, 2⟩], true, true, none, none⟩ =
      (⟨true, [⟨"r1", 0, 2⟩], true, true, none, none⟩, some TrimError.busy) :=
  trim_busy_rejected _ true true rfl

/-- C7: with an empty region list, a trim request only sets the
no-regions error: no extraction operation is emitted, no plan or
trimmed-output state is created, and every other state field (regions,
flags, stored output) is untouched, so the executor is never reached. -/
theorem trim_empty_noRegions (st : VoiceState) (initOk execOk : Bool)
    (hr : st.regions = []) (hp : st.isProcessing = false) :
    trimClick initOk execOk st =
      ({ st with err := some TrimError.noRegions }, some TrimError.noRegions) := by
  simp [trimClick, trimAudio, hp, hr]

/-- Witness for C7: the empty-region state with a file selected yields
the no-regions error and no other change. -/
theorem trim_empty_noRegions_app :
    trimClick true true ⟨true, [], false, false, none, none⟩ =
      (⟨true, [], false, false, none, some TrimError.noRegions⟩, some TrimError.noRegions) :=
  trim_empty_noRegions ⟨true, [], false, false, none, none⟩ true true rfl rfl

end Voice

namespace Uploader

/-- A volume envelope point of a track (time, volume). -/
structure EnvelopePoint where
  time : ℚ
  volume : ℚ
deriving DecidableEq, Repr

/-- An audio track of the multitrack editor (`tracks` state entry). -/
structure Track where
  id : Nat
  name : String
  volume : ℚ
  startPosition : ℚ
  draggable : Bool
  envelope : List EnvelopePoint
deriving DecidableEq, Repr

/-- The initial `tracks` state of the component: the locked video-audio
track and two draggable songs. -/
def initialTracks : List Track :=
  [⟨0, "Video Audio", 1, 0, false, []⟩,
   ⟨1, "Song 1", 8/10, 0, true, []⟩,
   ⟨2, "Song 2", 8/10, 0, true, []⟩]

/-- The state update of `updateTrackVolume`: store the given volume on
the track with the matching id (the engine-side `setVolume` probing acts
on the external handle and does not change this stored state). -/
def updateTrackVolume (trackId : Nat) (volume : ℚ) (tracks : List Track) : List Track :=
  tracks.map fun t => if t.id = trackId then { t with volume := volume } else t

/-- The `start-position-change` event handler: store the reported
position on the track with the matching id. -/
def startPositionChange (trackId : Nat) (startPosition : ℚ) (tracks : List Track) : List Track :=
  tracks.map fun t => if t.id = trackId then { t with startPosition := startPosition } else t

/-- One drift-correction tick of `updateTime`: given the master
(multitrack) time and the follower (video element) time, hard-set the
follower to the master when the absolute drift exceeds 0.2 s, otherwise
leave it untouched.  Returns the follower's time after the tick. -/
def updateTime (masterTime followerTime : ℚ) : ℚ :=
  if |followerTime - masterTime| > 1/5 then masterTime else followerTime

end Uploader

namespace Uploader

/-- C2: at one drift-correction tick, if the absolute drift between the
follower and the master exceeds 0.2 s the follower is set to the master's
time; if the drift is at most 0.2 s the follower is left unmodified; and
re-applying the tick with the same master time causes no further
change. -/
theorem drift_correction_tick (m f : ℚ) :
    (|f - m| > 1/5 → updateTime m f = m) ∧
      (|f - m| ≤ 1/5 → updateTime m f = f) ∧
      updateTime m (updateTime m f) = updateTime m f := by
  refine ⟨fun h => by unfold updateTime; rw [if_pos h],
    fun h => by unfold updateTime; rw [if_neg (not_lt.mpr h)], ?_⟩
  by_cases h : |f - m| > 1/5
  · have h1 : updateTime m f = m := by unfold updateTime; rw [if_pos h]
    rw [h1]
    show (if |m - m| > 1/5 then m else m) = m
    exact ite_self m
  · have h1 : updateTime m f = f := by unfold updateTime; rw [if_neg h]
    rw [h1]
    exact h1

/-- Witness for C2: drift 7 s is corrected to the master time 3; drift
0.1 s leaves the follower at 3.1. -/
theorem drift_correction_tick_app :
    updateTime 3 10 = 3 ∧ updateTime 3 (31/10) = 31/10 :=
  ⟨(drift_correction_tick 3 10).1 (by norm_num),
   (drift_correction_tick 3 (31/10)).2.1 (by rw [abs_le]; norm_num)⟩

/-- C4 counterexample: `updateTrackVolume` does not clamp.  With the
initial tracks, setting track 1's volume to 2 stores 2 itself, while the
claimed stored value `min (max 2 0) 1` is 1 — the stored volume is
outside `[0,1]`. -/
theorem updateTrackVolume_unclamped_cex :
    (updateTrackVolume 1 2 initialTracks).map Track.volume = [1, 2, 8/10] ∧
      min (max (2:ℚ) 0) 1 ≠ 2 := by
  constructor
  · simp [updateTrackVolume, initialTracks]
  · norm_num

/-- C4 amended: `updateTrackVolume` stores the given volume unchanged
(no clamping) on every track with the matching id, applying it twice with
the same value equals applying it once, and for volumes in `[0,1]` — the
only values the volume slider can emit — the stored value coincides with
the clamp `min (max v 0) 1`. -/
theorem updateTrackVolume_amended (tracks : List Track) (trackId : Nat) (v : ℚ) :
    updateTrackVolume trackId v (updateTrackVolume trackId v tracks) =
        updateTrackVolume trackId v tracks ∧
      (∀ t ∈ updateTrackVolume trackId v tracks, t.id = trackId → t.volume = v) ∧
      (0 ≤ v → v ≤ 1 → min (max v 0) 1 = v) := by
  refine ⟨?_, ?_, fun h0 h1 => by rw [max_eq_left h0, min_eq_left h1]⟩
  · induction tracks with
    | nil => rfl
    | cons t ts ih =>
      simp only [updateTrackVolume, List.map_cons] at ih ⊢
      by_cases h : t.id = trackId
      · simpa [h] using ih
      · simpa [h] using ih
  · intro t ht hid
    simp only [updateTrackVolume, List.mem_map] at ht
    obtain ⟨s, _, rfl⟩ := ht
    by_cases h : s.id = trackId
    · simp [h]
    · rw [if_neg h] at hid ⊢
      exact absurd hid h

/-- Witness for C4 amended: applied at the initial tracks with v = 1/2 on
track 2 (hypotheses of the clamp conjunct discharged at 0 ≤ 1/2 ≤ 1). -/
theorem updateTrackVolume_amended_app :
    updateTrackVolume 2 (1/2) (updateTrackVolume 2 (1/2) initialTracks) =
        updateTrackVolume 2 (1/2) initialTracks ∧
      min (max (1/2 : ℚ) 0) 1 = 1/2 :=
  ⟨(updateTrackVolume_amended initialTracks 2 (1/2)).1,
   (updateTrackVolume_amended initialTracks 2 (1/2)).2.2 (by norm_num) (by norm_num)⟩

/-- C8 counterexample: the `start-position-change` handler ignores the
`draggable` flag and does not clamp.  Track 0 is not draggable
(`draggable = false`) and starts at position 0, yet the handler applied
with position −5 stores −5 on it — not a no-op, no `NotDraggable`
report, and not `max 0 (−5) = 0`. -/
theorem startPositionChange_ignores_draggable_cex :
    initialTracks.map Track.draggable = [false, true, true] ∧
      initialTracks.map Track.startPosition = [0, 0, 0] ∧
      (startPositionChange 0 (-5) initialTracks).map Track.startPosition = [-5, 0, 0] ∧
      max (0:ℚ) (-5) ≠ -5 := by decide

/-- C8 amended: the `start-position-change` handler stores the reported
position unchanged on every track whose id matches — regardless of the
`draggable` flag and without clamping to `max 0 t` — and leaves every
other track untouched; non-draggable tracks are protected only by the
external engine (which is configured not to emit drags for them), not by
this handler. -/
theorem startPositionChange_amended (tracks : List Track) (trackId : Nat) (p : ℚ) :
    (∀ t ∈ tracks, t.id = trackId →
        { t with startPosition := p } ∈ startPositionChange trackId p tracks) ∧
      (∀ t ∈ tracks, t.id ≠ trackId → t ∈ startPositionChange trackId p tracks) := by
  constructor <;> intro t ht h
  · have he : { t with startPosition := p } =
        (fun t : Track => if t.id = trackId then { t with startPosition := p } else t) t := by
      simp [h]
    rw [he]
    exact List.mem_map_of_mem _ ht
  · have he : t = (fun t : Track => if t.id = trackId then { t with startPosition := p } else t) t := by
      simp [h]
    rw [he]
    exact List.mem_map_of_mem _ ht

/-- Witness for C8 amended: moving track 1 of the initial tracks to 42
stores 42 on it, and leaves track 0 untouched. -/
theorem startPositionChange_amended_app :
    (⟨1, "Song 1", 8/10, 42, true, []⟩ : Track) ∈ startPositionChange 1 42 initialTracks ∧
      (⟨0, "Video Audio", 1, 0, false, []⟩ : Track) ∈ startPositionChange 1 42 initialTracks :=
  ⟨(startPositionChange_amended initialTracks 1 42).1 ⟨1, "Song 1", 8/10, 0, true, []⟩
      (by simp [initialTracks]) rfl,
   (startPositionChange_amended initialTracks 1 42).2 ⟨0, "Video Audio", 1, 0, false, []⟩
      (by simp [initialTracks]) (by decide)⟩

end Uploader

namespace Uploader

/-- A subtitle region of the multitrack editor (the `regions` state of the
component and, mirrored, the regions held by the external plugin).  The
source field `end` is a reserved word in Lean and is named `stop` here. -/
structure Region where
  id : String
  start : ℚ
  stop : ℚ
  content : String
  color : String
deriving DecidableEq, Repr

/-- Local non-fatal condition reported by `addRegion` when the external
regions plugin is not yet attached (the "Please wait for the video to
load completely" alert). -/
inductive RegionCondition where
  | engineNotReady
deriving DecidableEq, Repr

/-- Region-manager state of the multitrack editor: plugin readiness
(`regionsPluginRef.current` non-null), playback anchor `currentTime`,
session `duration`, the regions held by the external plugin, the React
`regions` state, and the selected region id. -/
structure EditorState where
  pluginReady : Bool
  currentTime : ℚ
  duration : ℚ
  pluginRegions : List Region
  regions : List Region
  selectedRegion : Option String
deriving DecidableEq, Repr

/-- The fixed color palette of `addRegion`. -/
def regionColors : List String :=
  ["rgba(200, 50, 50, 0.5)",
   "rgba(50, 200, 50, 0.5)",
   "rgba(50, 50, 200, 0.5)",
   "rgba(200, 200, 50, 0.5)",
   "rgba(200, 50, 200, 0.5)",
   "rgba(50, 200, 200, 0.5)"]

/-- The `addRegion` operation.  Its two sources of nondeterminism are
passed as oracles: `randIndex` is the value of
`Math.floor(Math.random() * colors.length)` (an index in `0..5`) and
`now` the `Date.now()` timestamp used for the id.  If the plugin is not
ready the operation reports the condition and mutates nothing; otherwise
it appends a region `(currentTime, min (currentTime + 10) duration)` to
the plugin and to the state.  The anchor `currentTime` is stored as-is,
without clamping. -/
def addRegion (randIndex : Nat) (now : Nat) (st : EditorState) :
    EditorState × Option RegionCondition :=
  if st.pluginReady = false then (st, some RegionCondition.engineNotReady)
  else
    let r : Region :=
      { id := "region-" ++ toString now
        start := st.currentTime
        stop := min (st.currentTime + 10) st.duration
        content := "New subtitle"
        color := regionColors.getD randIndex "" }
    ({ st with pluginRegions := st.pluginRegions ++ [r], regions := st.regions ++ [r] }, none)

/-- The `updateRegionTime` operation: if the plugin is missing or no
plugin region carries the id, nothing happens; otherwise the new start is
clamped to `[0, duration]`, the new end to `[validStart, duration]`, and
both the plugin region and the state entry are updated. -/
def updateRegionTime (regionId : String) (newStart newEnd : ℚ) (st : EditorState) :
    EditorState :=
  if st.pluginReady = false then st
  else
    match st.pluginRegions.find? (fun r => r.id == regionId) with
    | none => st
    | some _ =>
      let validStart := max 0 (min newStart st.duration)
      let validEnd := max validStart (min newEnd st.duration)
      let upd : Region → Region := fun r =>
        if r.id == regionId then { r with start := validStart, stop := validEnd } else r
      { st with pluginRegions := st.pluginRegions.map upd, regions := st.regions.map upd }

/-- The `deleteRegion` operation: if the plugin is missing or no plugin
region carries the id, nothing happens; otherwise the region is removed
from the plugin and from the state, and the selection is cleared when it
pointed at the deleted region. -/
def deleteRegion (regionId : String) (st : EditorState) : EditorState :=
  if st.pluginReady = false then st
  else
    match st.pluginRegions.find? (fun r => r.id == regionId) with
    | none => st
    | some _ =>
      { st with
        pluginRegions := st.pluginRegions.filter (fun r => !(r.id == regionId)),
        regions := st.regions.filter (fun r => !(r.id == regionId)),
        selectedRegion := if st.selectedRegion = some regionId then none
                          else st.selectedRegion }

end Uploader

namespace Uploader

/-- C3 counterexample: `addRegion` does not clamp the anchor.  With the
engine ready, `duration = 8` and playback anchor `currentTime = 9`
(possible, since the multitrack clock can run past the video's duration),
the stored region is `(9, 8)` — and `9 ≤ 8` is false, violating
`0 ≤ start ≤ end ≤ duration`. -/
theorem addRegion_unclamped_cex :
    ((addRegion 0 0 (EditorState.mk true 9 8 [] [] none)).1.regions.map
        fun r => (r.start, r.stop)) = [(9, 8)] ∧ ¬ ((9:ℚ) ≤ 8) := by
  have hmin : min ((9:ℚ) + 10) 8 = 8 := min_eq_right (by norm_num)
  constructor
  · simp [addRegion, hmin]
  · norm_num

/-- C3 amended: `updateRegionTime` always clamps — every region it
stores either is an untouched previous region or satisfies
`0 ≤ start ≤ end ≤ duration` — while `addRegion` stores an in-range
region whenever the playback anchor itself lies in `[0, duration]`; the
anchor is not clamped, so an anchor outside that interval is stored out
of range. -/
theorem region_bounds_amended (st : EditorState) (randIndex now : Nat)
    (regionId : String) (s e : ℚ) :
    (st.pluginReady = true → 0 ≤ st.currentTime → st.currentTime ≤ st.duration →
      ∃ r : Region, (addRegion randIndex now st).1.regions = st.regions ++ [r] ∧
        0 ≤ r.start ∧ r.start ≤ r.stop ∧ r.stop ≤ st.duration) ∧
    (0 ≤ st.duration →
      ∀ r ∈ (updateRegionTime regionId s e st).regions,
        r ∈ st.regions ∨ (0 ≤ r.start ∧ r.start ≤ r.stop ∧ r.stop ≤ st.duration)) := by
  constructor
  · intro hp h0 h1
    refine ⟨⟨"region-" ++ toString now, st.currentTime,
        min (st.currentTime + 10) st.duration, "New subtitle",
        regionColors.getD randIndex ""⟩, by simp [addRegion, hp], h0, ?_, ?_⟩
    · exact le_min (by linarith) h1
    · exact min_le_right _ _
  · intro hd r hr
    unfold updateRegionTime at hr
    split at hr
    · exact Or.inl hr
    · split at hr
      · exact Or.inl hr
      · simp only [List.mem_map] at hr
        obtain ⟨s0, hs0, rfl⟩ := hr
        by_cases hid : (s0.id == regionId) = true
        · rw [if_pos hid]
          refine Or.inr ⟨le_max_left _ _, le_max_left _ _, ?_⟩
          exact max_le (max_le hd (min_le_right _ _)) (min_le_right _ _)
        · rw [if_neg hid]
          exact Or.inl hs0

/-- Witness for C3 amended: an in-range anchor (1 in a session of
duration 8) yields an in-range region, and clamping an update with
inputs −3 and 99 on a stored region keeps every stored region in
range. -/
theorem region_bounds_amended_app :
    (∃ r : Region,
        (addRegion 0 0 (EditorState.mk true 1 8 [] [] none)).1.regions = [] ++ [r] ∧
          0 ≤ r.start ∧ r.start ≤ r.stop ∧ r.stop ≤ (8:ℚ)) ∧
      (∀ r ∈ (updateRegionTime "r1" (-3) 99
          (EditorState.mk true 1 8 [⟨"r1", 0, 2, "s", "c"⟩] [⟨"r1", 0, 2, "s", "c"⟩]
            none)).regions,
        r ∈ [(⟨"r1", 0, 2, "s", "c"⟩ : Region)] ∨
          (0 ≤ r.start ∧ r.start ≤ r.stop ∧ r.stop ≤ (8:ℚ))) :=
  ⟨(region_bounds_amended (EditorState.mk true 1 8 [] [] none) 0 0 "r1" (-3) 99).1
      rfl (by norm_num) (by norm_num),
   (region_bounds_amended
      (EditorState.mk true 1 8 [⟨"r1", 0, 2, "s", "c"⟩] [⟨"r1", 0, 2, "s", "c"⟩] none)
      0 0 "r1" (-3) 99).2 (by norm_num)⟩

/-- C6: with the regions plugin ready, `addRegion` at anchor `t` in a
session of duration `d` appends exactly one region with `start = t` and
`end = min (t + 10) d` (the code's default length is 10) to the plugin
and to the state; with the plugin not ready it reports the engine-not-
ready condition and mutates nothing. -/
theorem addRegion_spec (st : EditorState) (randIndex now : Nat) :
    (st.pluginReady = true →
      addRegion randIndex now st =
        ({ st with
            pluginRegions := st.pluginRegions ++
              [⟨"region-" ++ toString now, st.currentTime,
                min (st.currentTime + 10) st.duration, "New subtitle",
                regionColors.getD randIndex ""⟩],
            regions := st.regions ++
              [⟨"region-" ++ toString now, st.currentTime,
                min (st.currentTime + 10) st.duration, "New subtitle",
                regionColors.getD randIndex ""⟩] }, none)) ∧
      (st.pluginReady = false →
        addRegion randIndex now st = (st, some RegionCondition.engineNotReady)) := by
  constructor <;> intro h <;> simp [addRegion, h]

/-- Witness for C6 at spec scenario C: `duration = 8`, anchor 6, default
length 10 — the stored region is `(6, min 16 8) = (6, 8)`, length 2. -/
theorem addRegion_spec_app :
    addRegion 0 0 (EditorState.mk true 6 8 [] [] none) =
      ({ EditorState.mk true 6 8 [] [] none with
          pluginRegions := [] ++
            [⟨"region-" ++ toString 0, 6, min ((6:ℚ) + 10) 8, "New subtitle",
              regionColors.getD 0 ""⟩],
          regions := [] ++
            [⟨"region-" ++ toString 0, 6, min ((6:ℚ) + 10) 8, "New subtitle",
              regionColors.getD 0 ""⟩] }, none) ∧
      min ((6:ℚ) + 10) 8 = 8 :=
  ⟨(addRegion_spec (EditorState.mk true 6 8 [] [] none) 0 0).1 rfl,
   min_eq_right (by norm_num)⟩

/-- C9 counterexample: the color draw is random, not deterministic.  Two
runs of `addRegion` from the identical prior state with identical user
input, differing only in the `Math.random()` draw, store regions with
different colors. -/
theorem region_color_random_cex :
    (addRegion 0 0 (EditorState.mk true 0 8 [] [] none)).1.regions.map Region.color ≠
      (addRegion 1 0 (EditorState.mk true 0 8 [] [] none)).1.regions.map Region.color := by
  simp only [addRegion, regionColors]
  decide

/-- C9 amended: the stored color is a function of the random index drawn
by `Math.floor(Math.random() * colors.length)`, and always belongs to the
fixed six-color palette — but the index comes from `Math.random()`, so
the assignment is a random draw over the palette, not a deterministic
palette cycle. -/
theorem region_color_palette_amended (st : EditorState) (randIndex now : Nat)
    (hp : st.pluginReady = true) (hi : randIndex < 6) :
    ∃ r : Region, (addRegion randIndex now st).1.regions = st.regions ++ [r] ∧
      r.color = regionColors.getD randIndex "" ∧ r.color ∈ regionColors := by
  refine ⟨⟨"region-" ++ toString now, st.currentTime,
      min (st.currentTime + 10) st.duration, "New subtitle",
      regionColors.getD randIndex ""⟩, by simp [addRegion, hp], rfl, ?_⟩
  interval_cases randIndex <;> simp [regionColors]

/-- Witness for C9 amended at a concrete state and draw index 2. -/
theorem region_color_palette_amended_app :
    ∃ r : Region,
      (addRegion 2 5 (EditorState.mk true 0 8 [] [] none)).1.regions = [] ++ [r] ∧
        r.color = regionColors.getD 2 "" ∧ r.color ∈ regionColors :=
  region_color_palette_amended (EditorState.mk true 0 8 [] [] none) 2 5 rfl (by norm_num)

/-- C10: for a region id carried by no stored region, `deleteRegion` and
`updateRegionTime` are silent no-ops — the state (plugin regions, React
region list, selection) is returned unchanged, and the source reports no
error on this path. -/
theorem missing_region_ops_noop (st : EditorState) (regionId : String) (s e : ℚ)
    (habs : ∀ r ∈ st.pluginRegions, r.id ≠ regionId) :
    deleteRegion regionId st = st ∧ updateRegionTime regionId s e st = st := by
  have hfind : st.pluginRegions.find? (fun r => r.id == regionId) = none := by
    rw [List.find?_eq_none]
    intro r hr
    simpa using habs r hr
  constructor
  · unfold deleteRegion
    split
    · rfl
    · rw [hfind]
  · unfold updateRegionTime
    split
    · rfl
    · rw [hfind]

/-- Witness for C10: deleting or updating the absent id `region-2` in a
state holding only `region-1` changes nothing. -/
theorem missing_region_ops_noop_app :
    deleteRegion "region-2"
        (EditorState.mk true 0 8 [⟨"region-1", 0, 2, "s", "c"⟩]
          [⟨"region-1", 0, 2, "s", "c"⟩] (some "region-1")) =
      EditorState.mk true 0 8 [⟨"region-1", 0, 2, "s", "c"⟩]
        [⟨"region-1", 0, 2, "s", "c"⟩] (some "region-1") ∧
      updateRegionTime "region-2" 3 4
        (EditorState.mk true 0 8 [⟨"region-1", 0, 2, "s", "c"⟩]
          [⟨"region-1", 0, 2, "s", "c"⟩] (some "region-1")) =
      EditorState.mk true 0 8 [⟨"region-1", 0, 2, "s", "c"⟩]
        [⟨"region-1", 0, 2, "s", "c"⟩] (some "region-1") :=
  missing_region_ops_noop _ "region-2" 3 4
    (fun r hr => by simp at hr; subst hr; decide)

end Uploader
